import Mathlib

/-!
Verification development for the `vue-event-system` plugin (`src/events.js`).

The file shallowly embeds the plugin's two event channels:
* the identifier normalizer (the regex replacements at lines 73-76, 114-117,
  132-135, 233-236, 251-254, 283-286),
* the handler registries and their attach/detach/emit operations,
* the remote transport engine's outbound queue and flush tick (`pumpHandler`),
* the per-subscriber dispatch facade (`$on` / `$once` / `$off` / `$emit`).

JavaScript values that flow through the emit paths are modelled by `JsValue`;
`JSON.stringify` is modelled by `stringify` (note that serializing an array
drops its non-index properties, exactly as in JavaScript).  Thrown exceptions
(`TypeError`) are modelled with `Except` / `Option JsError`.
-/

set_option autoImplicit false

namespace VueEventSystem

/-- Character class of the regex `-([A-Za-z0-9])` (flags `gi`) used by `attachHandler`,
`detachHandler` (both channels) and the inbound `messageHandler`:
ASCII letters and digits. -/
def dashClassFull (c : Char) : Bool :=
  c.isAlpha || c.isDigit

/-- Character class of the regex `-([a-z])` (flags `gi`) used by the local channel's
`emitHandler` (line 284): ASCII letters only (the `i` flag makes the class
case-insensitive, so both cases match, but digits do not). -/
def dashClassLetter (c : Char) : Bool :=
  c.isAlpha

/-- Left-to-right, non-overlapping replacement of every `-<c>` (with `c` in
class `p`) by `toUpper c`, as performed by
`identifier.replace(<dash-class regex>, (s, group1) => group1.toUpperCase())`. -/
def dashReplace (p : Char → Bool) : List Char → List Char
  | [] => []
  | [c] => [c]
  | a :: b :: rest =>
    if a = '-' ∧ p b then Char.toUpper b :: dashReplace p rest
    else a :: dashReplace p (b :: rest)

/-- Whether the string contains a match of the pattern dash-followed-by-class-`p`,
i.e. a dash immediately followed by a character of class `p`. -/
def hasDashMatch (p : Char → Bool) : List Char → Bool
  | a :: b :: rest => (decide (a = '-') && p b) || hasDashMatch p (b :: rest)
  | _ => false

/-- No two consecutive dashes occur in the string. -/
def noDoubleDash : List Char → Bool
  | a :: b :: rest => !(decide (a = '-') && decide (b = '-')) && noDoubleDash (b :: rest)
  | _ => true

/-- No dash immediately followed by an ASCII digit occurs in the string. -/
def noDashDigit : List Char → Bool
  | a :: b :: rest => !(decide (a = '-') && b.isDigit) && noDashDigit (b :: rest)
  | _ => true

/-- Normalization applied by `attachHandler` (lines 113-117 and 232-236;
the remote and local channels contain the identical expression). -/
def attachNorm (cc : Bool) (s : String) : String :=
  if cc then String.mk (dashReplace dashClassFull s.data) else s

/-- Normalization applied by `detachHandler` (lines 131-135 and 250-254). -/
def detachNorm (cc : Bool) (s : String) : String :=
  if cc then String.mk (dashReplace dashClassFull s.data) else s

/-- Normalization applied to the extracted identifier of an inbound socket
message by `messageHandler` (lines 72-76). -/
def inboundNorm (cc : Bool) (s : String) : String :=
  if cc then String.mk (dashReplace dashClassFull s.data) else s

/-- Normalization applied by the local channel's `emitHandler` (lines
282-286). Note the narrower character class: `-([a-z])` (flags `gi`). -/
def localEmitNorm (cc : Bool) (s : String) : String :=
  if cc then String.mk (dashReplace dashClassLetter s.data) else s

/-! Basic facts about the replacement. -/

theorem toUpper_ne_dash (c : Char) (h : dashClassFull c = true) :
    Char.toUpper c ≠ '-' := by
  intro heq
  unfold Char.toUpper at heq
  by_cases hl : c.toNat ≥ 97 ∧ c.toNat ≤ 122
  · rw [if_pos hl] at heq
    have hvalid : (c.toNat - 32).isValidChar := by
      left
      omega
    have h1 : (Char.ofNat (c.toNat - 32)).toNat = c.toNat - 32 := by
      rw [Char.ofNat, dif_pos hvalid]
      rfl
    rw [heq] at h1
    have h2 : Char.toNat '-' = 45 := by decide
    rw [h2] at h1
    omega
  · rw [if_neg hl] at heq
    subst heq
    simp [dashClassFull, Char.isAlpha, Char.isDigit, Char.isUpper, Char.isLower] at h

theorem dashReplace_eq_self (p : Char → Bool) (l : List Char)
    (h : hasDashMatch p l = false) : dashReplace p l = l := by
  induction l using dashReplace.induct p with
  | case1 => rfl
  | case2 c => rfl
  | case3 a b rest hc ih =>
    simp [hasDashMatch, hc.1, hc.2] at h
  | case4 a b rest hc ih =>
    simp [hasDashMatch] at h
    rw [dashReplace, if_neg hc, ih h.2]

theorem dashReplace_length_le (p : Char → Bool) (l : List Char) :
    (dashReplace p l).length ≤ l.length := by
  induction l using dashReplace.induct p with
  | case1 => simp [dashReplace]
  | case2 c => simp [dashReplace]
  | case3 a b rest hc ih =>
    rw [dashReplace, if_pos hc]
    simp only [List.length_cons]
    omega
  | case4 a b rest hc ih =>
    rw [dashReplace, if_neg hc]
    simp only [List.length_cons] at ih ⊢
    omega

theorem dashReplace_length_lt (p : Char → Bool) (l : List Char)
    (h : hasDashMatch p l = true) : (dashReplace p l).length < l.length := by
  induction l using dashReplace.induct p with
  | case1 => simp [hasDashMatch] at h
  | case2 c => simp [hasDashMatch] at h
  | case3 a b rest hc ih =>
    rw [dashReplace, if_pos hc]
    have := dashReplace_length_le p rest
    simp only [List.length_cons]
    omega
  | case4 a b rest hc ih =>
    rw [dashReplace, if_neg hc]
    simp [hasDashMatch] at h
    rcases h with h | h
    · exact absurd ⟨h.1, h.2⟩ hc
    · have hlt := ih h
      simp only [List.length_cons] at hlt ⊢
      omega

theorem dashReplace_eq_self_iff (p : Char → Bool) (l : List Char) :
    dashReplace p l = l ↔ hasDashMatch p l = false := by
  constructor
  · intro h
    by_contra hm
    rw [Bool.not_eq_false] at hm
    have := dashReplace_length_lt p l hm
    rw [h] at this
    omega
  · exact dashReplace_eq_self p l

theorem dashReplace_cons_of_ne_dash (p : Char → Bool) (x : Char) (rest : List Char)
    (hx : x ≠ '-') : dashReplace p (x :: rest) = x :: dashReplace p rest := by
  cases rest with
  | nil => rfl
  | cons b r =>
    rw [dashReplace, if_neg]
    intro hc
    exact hx hc.1

theorem noDoubleDash_tail (x : Char) (l : List Char)
    (h : noDoubleDash (x :: l) = true) : noDoubleDash l = true := by
  cases l with
  | nil => rfl
  | cons b r =>
    simp [noDoubleDash] at h ⊢
    exact h.2

theorem noDashDigit_tail (x : Char) (l : List Char)
    (h : noDashDigit (x :: l) = true) : noDashDigit l = true := by
  cases l with
  | nil => rfl
  | cons b r =>
    simp [noDashDigit] at h ⊢
    exact h.2

/-- Key lemma for idempotence: on a string without consecutive dashes, one
pass of the replacement leaves no dash-letter-or-digit match behind. -/
theorem hasDashMatch_dashReplace_of_noDoubleDash (l : List Char)
    (h : noDoubleDash l = true) :
    hasDashMatch dashClassFull (dashReplace dashClassFull l) = false := by
  induction l using dashReplace.induct dashClassFull with
  | case1 => rfl
  | case2 c => rfl
  | case3 a b rest hc ih =>
    rw [dashReplace, if_pos hc]
    have hrest : noDoubleDash rest = true :=
      noDoubleDash_tail b rest (noDoubleDash_tail a (b :: rest) h)
    have ihr := ih hrest
    cases hdr : dashReplace dashClassFull rest with
    | nil => rfl
    | cons y t =>
      rw [hdr] at ihr
      simp [hasDashMatch, ihr]
      intro hdash
      exact absurd hdash (toUpper_ne_dash b hc.2)
  | case4 a b rest hc ih =>
    rw [dashReplace, if_neg hc]
    have htl : noDoubleDash (b :: rest) = true := noDoubleDash_tail a (b :: rest) h
    have ihr := ih htl
    by_cases ha : a = '-'
    · have hb : b ≠ '-' := by
        intro hb
        simp [noDoubleDash, ha, hb] at h
      have hpb : dashClassFull b = false := by
        by_contra hp
        rw [Bool.not_eq_false] at hp
        exact hc ⟨ha, hp⟩
      rw [dashReplace_cons_of_ne_dash dashClassFull b rest hb] at ihr ⊢
      simp [hasDashMatch, ha, hpb]
      simpa [hasDashMatch] using ihr
    · cases hdr : dashReplace dashClassFull (b :: rest) with
      | nil => rfl
      | cons y t =>
        rw [hdr] at ihr
        simp [hasDashMatch, ihr, ha]

/-- On a string with no dash-digit pair, the local channel's narrower
emit-time replacement agrees with the full replacement. -/
theorem dashReplace_letter_eq_full (l : List Char)
    (h : noDashDigit l = true) :
    dashReplace dashClassLetter l = dashReplace dashClassFull l := by
  induction l using dashReplace.induct dashClassFull with
  | case1 => rfl
  | case2 c => rfl
  | case3 a b rest hc ih =>
    have hdig : b.isDigit = false := by
      by_contra hd
      rw [Bool.not_eq_false] at hd
      simp [noDashDigit, hc.1, hd] at h
    have halpha : dashClassLetter b = true := by
      have := hc.2
      simp [dashClassFull, hdig] at this
      simpa [dashClassLetter] using this
    have hrest : noDashDigit rest = true :=
      noDashDigit_tail b rest (noDashDigit_tail a (b :: rest) h)
    simp only [dashReplace]
    rw [if_pos ⟨hc.1, halpha⟩, if_pos hc, ih hrest]
  | case4 a b rest hc ih =>
    have hc' : ¬(a = '-' ∧ dashClassLetter b = true) := by
      intro hl
      refine hc ⟨hl.1, ?_⟩
      simp [dashClassLetter] at hl
      simp [dashClassFull, hl.2]
    have htl : noDashDigit (b :: rest) = true := noDashDigit_tail a (b :: rest) h
    simp only [dashReplace]
    rw [if_neg hc', if_neg hc, ih htl]

/-! JavaScript values flowing through the emit paths.  Arrays carry, besides
their elements, the non-index properties a caller may have assigned to them
(the code assigns `args.identifier = identifier` to an array value); those
properties are ignored by `JSON.stringify`, exactly as in JavaScript. -/

inductive JsValue where
  | undef
  | null
  | bool (b : Bool)
  | num (n : Int)
  | str (s : String)
  | obj (fields : List (String × JsValue))
  | arr (elems : List JsValue) (props : List (String × JsValue))

/-- Truthiness of a JavaScript value (`undefined`, `null`, `false`, `0` and
the empty string are falsy; objects and arrays are always truthy). -/
def truthy : JsValue → Bool
  | JsValue.undef => false
  | JsValue.null => false
  | JsValue.bool b => b
  | JsValue.num n => decide (n ≠ 0)
  | JsValue.str s => decide (s ≠ "")
  | JsValue.obj _ => true
  | JsValue.arr _ _ => true

/-- Whether `typeof v === "object"` holds (true for `null`, plain objects
and arrays). -/
def isObjectType : JsValue → Bool
  | JsValue.null => true
  | JsValue.obj _ => true
  | JsValue.arr _ _ => true
  | _ => false

/-- Minimal JSON string escaping (quote and backslash; the identifiers and
payloads in this development contain no control characters). -/
def escapeChar (c : Char) : String :=
  if c = '"' then "\\\"" else if c = '\\' then "\\\\" else String.singleton c

def escape (s : String) : String :=
  String.join (s.data.map escapeChar)

mutual

/-- Model of `JSON.stringify`.  Non-index properties of arrays are dropped;
`undefined` never occurs as a field value or array element in this
development, so no field-skipping logic is needed. -/
def stringify : JsValue → String
  | JsValue.undef => "null"
  | JsValue.null => "null"
  | JsValue.bool b => if b then "true" else "false"
  | JsValue.num n => toString n
  | JsValue.str s => "\"" ++ escape s ++ "\""
  | JsValue.obj fs => "\x7b" ++ stringifyFields fs ++ "\x7d"
  | JsValue.arr es _ => "[" ++ stringifyElems es ++ "]"

def stringifyFields : List (String × JsValue) → String
  | [] => ""
  | [(k, v)] => "\"" ++ escape k ++ "\":" ++ stringify v
  | (k, v) :: rest => "\"" ++ escape k ++ "\":" ++ stringify v ++ "," ++ stringifyFields rest

def stringifyElems : List JsValue → String
  | [] => ""
  | [v] => stringify v
  | v :: rest => stringify v ++ "," ++ stringifyElems rest

end

/-- JavaScript property assignment on a field list: an existing key is
updated in place (position preserved), a fresh key is appended. -/
def setField (fs : List (String × JsValue)) (k : String) (v : JsValue) :
    List (String × JsValue) :=
  match fs with
  | [] => [(k, v)]
  | (k', v') :: rest => if k' = k then (k, v) :: rest else (k', v') :: setField rest k v

/-- Errors thrown by the embedded code.  The only error this development
needs is `TypeError` (property access or method call on `undefined`/`null`). -/
inductive JsError where
  | typeError
deriving DecidableEq

/-- Property assignment `target[k] = v` as an expression on `JsValue`:
objects and arrays are updated (arrays in their non-index properties, since
`k` is never a numeric index here); assignment on `null` or `undefined`
throws a `TypeError`; assignment on a primitive is silently ignored in
non-strict code. -/
def setProp (target : JsValue) (k : String) (v : JsValue) : Except JsError JsValue :=
  match target with
  | JsValue.obj fs => Except.ok (JsValue.obj (setField fs k v))
  | JsValue.arr es ps => Except.ok (JsValue.arr es (setField ps k v))
  | JsValue.null => Except.error JsError.typeError
  | JsValue.undef => Except.error JsError.typeError
  | prim => Except.ok prim

/-! The handler registries. -/

/-- A callback value.  `base n` is an ordinary function (identified by `n`
for reference equality); `onceWrap tag fn` is the single-use adapter built by
`$once`, a fresh function object (`tag` distinguishes distinct wrappers)
carrying the wrapped callback in its `fn` property (`once.fn = callback`,
line 382). -/
inductive Callback where
  | base (n : Nat)
  | onceWrap (tag : Nat) (fn : Callback)
deriving DecidableEq

/-- A registered handler: `{ callback: callback, thisArg: thisArg }`
(lines 119-122 / 238-241).  The invocation context is opaque to the bus and
modelled by an optional numeric subscriber id. -/
structure HandlerEntry where
  callback : Callback
  thisArg : Option Nat
deriving DecidableEq

/-- The value bound to an identifier key.  `detachHandler` with one argument
stores `null` under the key (`Handlers[identifier] = null`, lines 146 / 265),
so a key can be bound to `null` rather than to an entry list. -/
inductive RegVal where
  | nullVal
  | entries (l : List HandlerEntry)
deriving DecidableEq

/-- The `Handlers` object: an insertion-ordered mapping from identifier keys
to bound values.  A key not in the list is absent from the object. -/
abbrev Registry := List (String × RegVal)

def lookupReg : Registry → String → Option RegVal
  | [], _ => none
  | (k', v') :: rest, k => if k' = k then some v' else lookupReg rest k

/-- JavaScript property assignment on the registry object: an existing key is
updated in place, a fresh key is appended. -/
def setReg : Registry → String → RegVal → Registry
  | [], k, v => [(k, v)]
  | (k', v') :: rest, k, v =>
    if k' = k then (k, v) :: rest else (k', v') :: setReg rest k v

/-- The match test of the two-argument detach loop (lines 151 / 270):
`Handler[index].callback === callback || Handler[index].callback.fn === callback`.
Only a `$once` wrapper has an `fn` property; on an ordinary function the
access yields `undefined`, which never equals a function. -/
def cbMatches (entryCb target : Callback) : Bool :=
  decide (entryCb = target) ||
    (match entryCb with
     | Callback.onceWrap _ f => decide (f = target)
     | Callback.base _ => false)

/-- `attachHandler` (lines 113-123 and 232-242; the remote and local channels
contain the identical code): normalizes the identifier and appends an entry,
creating the array if the key is absent or bound to a falsy value (the
expression `Handlers[identifier] || (Handlers[identifier] = [])` replaces a
`null` binding with a fresh array). -/
def attachHandler (cc : Bool) (ident : String) (cb : Callback)
    (thisArg : Option Nat) (reg : Registry) : Registry :=
  let key := attachNorm cc ident
  match lookupReg reg key with
  | some (RegVal.entries l) => setReg reg key (RegVal.entries (l ++ [⟨cb, thisArg⟩]))
  | _ => setReg reg key (RegVal.entries [⟨cb, thisArg⟩])

/-- `detachHandler` called with zero arguments (lines 131-140 / 250-259).
The normalization expression `identifier.replace(...)` is evaluated *before*
the `arguments.length === 0` check; with `camelCase` truthy the call
evaluates `undefined.replace`, which throws a `TypeError`, so the
registry-clearing branch is reachable only when `camelCase` is falsy. -/
def detachHandlerZero (cc : Bool) (_reg : Registry) : Except JsError Registry :=
  if cc then Except.error JsError.typeError else Except.ok []

/-- `detachHandler` called with one argument (lines 142-148 / 261-267): if
the key is bound to an array (even an empty one), it is rebound to `null`;
an absent or `null`-bound key is left unchanged (`if (!Handler) return`). -/
def detachHandlerOne (cc : Bool) (ident : String) (reg : Registry) : Registry :=
  let key := detachNorm cc ident
  match lookupReg reg key with
  | some (RegVal.entries _) => setReg reg key RegVal.nullVal
  | _ => reg

/-- `detachHandler` called with two (or more) arguments (lines 150-155 /
269-274): the splice loop walks the array from the end and removes every
entry whose callback matches; removing all matching indices of the array
equals filtering it while preserving order. -/
def detachHandlerTwo (cc : Bool) (ident : String) (cb : Callback)
    (reg : Registry) : Registry :=
  let key := detachNorm cc ident
  match lookupReg reg key with
  | some (RegVal.entries l) =>
    setReg reg key (RegVal.entries (l.filter (fun e => !cbMatches e.callback cb)))
  | _ => reg

/-- Invoking a single registered callback with a payload.  An ordinary
callback records its invocation (identity and received payload).  A `$once`
wrapper first evaluates `Vue.remote.detach(...)` (line 378) — but the plugin
installs the engine at `Vue.Events.remote` and never defines `Vue.remote`,
so the property access on `undefined` throws a `TypeError` before the
wrapped callback is reached. -/
def invokeCallback (cb : Callback) (payload : JsValue) :
    Except JsError (Nat × JsValue) :=
  match cb with
  | Callback.base n => Except.ok (n, payload)
  | Callback.onceWrap _ _ => Except.error JsError.typeError

/-- `Events.forEach(...)` over the entry list: runs callbacks in registration
order, stopping at (and propagating) the first thrown error.  Returns the
invocations of ordinary callbacks that happened plus the error, if any. -/
def runEntries (l : List HandlerEntry) (payload : JsValue) :
    List (Nat × JsValue) × Option JsError :=
  match l with
  | [] => ([], none)
  | e :: rest =>
    match invokeCallback e.callback payload with
    | Except.ok inv =>
      let r := runEntries rest payload
      (inv :: r.1, r.2)
    | Except.error er => ([], some er)

/-! Options defaulting and the two emit handlers. -/

/-- The options object passed to `install`; only the fields this development
reasons about are kept.  `none` models an absent (`undefined`) field. -/
structure InstallOptions where
  camelCase : Option Bool
  identifier : Option String
deriving DecidableEq

/-- `options.camelCase = options.camelCase || true` (lines 27 and 222; the
remote and local channels contain the identical expression).  An absent or
falsy value yields `true`, and a supplied `true` stays `true`, so the
effective setting is always truthy. -/
def effCamelCase (o : Option Bool) : Bool :=
  match o with
  | none => true
  | some b => b || true

/-- `options.identifier = options.identifier || 'identifier'` (line 25);
an absent or empty (falsy) string falls back to `"identifier"`. -/
def effIdentifierField (o : Option String) : String :=
  match o with
  | none => "identifier"
  | some s => if s = "" then "identifier" else s

/-- The value of `args` computed by the local `emitHandler` (line 289):
`arguments.length > 2 ? [].slice.apply(arguments, [1]) :
(arguments.length > 1 ? arguments[1] : [])`.  `extra` is the list of
arguments after the identifier. -/
def localEmitArgsValue (extra : List JsValue) : JsValue :=
  match extra with
  | [] => JsValue.arr [] []
  | [a] => a
  | _ => JsValue.arr extra []

/-- Result of the local `emitHandler`: the invocations that happened and
either the returned boolean or the thrown error. -/
structure LocalEmitResult where
  invocations : List (Nat × JsValue)
  result : Except JsError Bool

/-- The local channel's `emitHandler` (lines 282-311): normalizes the
identifier with the narrower letters-only regex, captures
`Events = Handlers[identifier]`, wraps a primitive argument value in
`{ arguments: args }`, injects `args[options.identifier] = identifier`
(which throws on a `null` argument), and, when `Events` is truthy — any
array, including an empty one — invokes every entry and returns `true`;
otherwise it returns `false`. -/
def emitHandlerLocal (cc : Bool) (identField : String) (ident : String)
    (extra : List JsValue) (reg : Registry) : LocalEmitResult :=
  let key := localEmitNorm cc ident
  let events := lookupReg reg key
  let args0 := localEmitArgsValue extra
  let args1 := if isObjectType args0 then args0 else JsValue.obj [("arguments", args0)]
  match setProp args1 identField (JsValue.str key) with
  | Except.error er => ⟨[], Except.error er⟩
  | Except.ok payload =>
    match events with
    | some (RegVal.entries l) =>
      let r := runEntries l payload
      match r.2 with
      | some er => ⟨r.1, Except.error er⟩
      | none => ⟨r.1, Except.ok true⟩
    | _ => ⟨[], Except.ok false⟩

/-- The value of `args` computed by the remote `emitHandler` (lines 164-167):
`arguments[1] || []` for at most one extra argument (a falsy sole argument is
replaced by an empty array), the sliced argument array for more. -/
def remoteEmitArgsValue (extra : List JsValue) : JsValue :=
  match extra with
  | [] => JsValue.arr [] []
  | [a] => if truthy a then a else JsValue.arr [] []
  | _ => JsValue.arr extra []

/-- The remote channel's `emitHandler` (lines 163-182): no normalization is
applied to the identifier.  If `typeof args === "object"` the raw identifier
is injected as the literal property `identifier` and the value serialized
(for an array value the injected property is dropped by `JSON.stringify`);
otherwise the envelope `{ identifier: ..., arguments: ... }` is serialized.
The serialized string is appended to `socketPump`.  The `null` and
`undefined` branches below are unreachable: `remoteEmitArgsValue` never
returns them (both are falsy). -/
def emitHandlerRemote (ident : String) (extra : List JsValue)
    (pump : List String) : List String :=
  match remoteEmitArgsValue extra with
  | JsValue.obj fs =>
    pump ++ [stringify (JsValue.obj (setField fs "identifier" (JsValue.str ident)))]
  | JsValue.arr es ps =>
    pump ++ [stringify (JsValue.arr es (setField ps "identifier" (JsValue.str ident)))]
  | a =>
    pump ++ [stringify (JsValue.obj [("identifier", JsValue.str ident), ("arguments", a)])]

/-! The remote transport engine's connection state and flush tick. -/

/-- `WebSocket.readyState` values. -/
inductive ReadyState where
  | connecting
  | opened
  | closing
  | closed
deriving DecidableEq

/-- State owned by the remote engine's closure: the handler registry, the
outbound queue `socketPump`, the connection handle `Client` (`none` when no
handle exists), and — as the observable trace of `Client.send` calls — the
list of payloads handed to the socket, in order. -/
structure RemoteState where
  handlers : Registry
  socketPump : List String
  client : Option ReadyState
  sent : List String
deriving DecidableEq

/-- `connect()` (lines 32-39): replaces `Client` with a fresh WebSocket,
whose `readyState` starts at `CONNECTING`. -/
def connectFn (st : RemoteState) : RemoteState :=
  { st with client := some ReadyState.connecting }

/-- Environment transition: the socket finishes its asynchronous open (the
runtime moves `readyState` to `OPEN` and fires `onopen`, which only logs and
calls the optional external hook).  Without a handle nothing happens. -/
def socketOpenEvent (st : RemoteState) : RemoteState :=
  match st.client with
  | some _ => { st with client := some ReadyState.opened }
  | none => st

/-- `pumpHandler` (lines 189-200), one flush tick: an empty queue returns at
once; otherwise a missing handle triggers `connect()` (the fresh handle is
still `CONNECTING`, so nothing is sent on that tick); only an `OPEN` handle
receives every queued item via `Client.send` in queue order, after which the
queue is cleared (`socketPump.length = 0`). -/
def pumpHandler (st : RemoteState) : RemoteState :=
  if st.socketPump = [] then st
  else
    let st1 := if st.client = none then connectFn st else st
    match st1.client with
    | some ReadyState.opened =>
      { st1 with sent := st1.sent ++ st1.socketPump, socketPump := [] }
    | _ => st1

/-- `Vue.Events.remote.emit` as a state transformer: appends the serialized
message to the outbound queue and touches nothing else. -/
def remoteEmitOp (ident : String) (extra : List JsValue) (st : RemoteState) :
    RemoteState :=
  { st with socketPump := emitHandlerRemote ident extra st.socketPump }

/-! The dispatch facade `Vue.prototype.$events` (lines 370-396). -/

/-- The whole bus: the local channel's registry plus the remote engine. -/
structure BusState where
  localReg : Registry
  remote : RemoteState

/-- The empty bus right after `install`. -/
def emptyBus : BusState :=
  ⟨[], ⟨[], [], none, []⟩⟩

/-- The local channel's effective `camelCase`.  Its IIFE is invoked with
*no* argument (line 318: `(function (options) ... )()`), so the defaulting
at line 222 always computes `undefined || true`. -/
def localCamelCase : Bool := effCamelCase none

/-- The local channel's identifier field.  The local IIFE receives no
options and never defaults `options.identifier`, so the assignment
`args[options.identifier] = identifier` at line 296 uses
`String(undefined)`, i.e. the property key `"undefined"`. -/
def localIdentField : String := "undefined"

/-- `$on(identifier, isLocal, callback)` (lines 371-374): attaches to the
selected channel's registry with the subscriber as context.  The local
channel's registry operations run under its own (optionless) defaulted
`camelCase`; the remote channel's under the install options'. -/
def facadeOn (opts : InstallOptions) (ident : String) (isLocal : Bool)
    (cb : Callback) (subscriber : Option Nat) (st : BusState) : BusState :=
  if isLocal then
    { st with localReg := attachHandler localCamelCase ident cb subscriber st.localReg }
  else
    { st with remote := { st.remote with
        handlers := attachHandler (effCamelCase opts.camelCase) ident cb subscriber
          st.remote.handlers } }

/-- `$once(identifier, isLocal, callback)` (lines 375-386): attaches the
single-use wrapper (carrying `fn = callback`) to the selected channel. -/
def facadeOnce (opts : InstallOptions) (ident : String) (isLocal : Bool)
    (cb : Callback) (tag : Nat) (subscriber : Option Nat) (st : BusState) :
    BusState :=
  facadeOn opts ident isLocal (Callback.onceWrap tag cb) subscriber st

/-- `$off(identifier, callback)` (lines 387-391): detaches the callback from
both registries.  The call passes three arguments to `detachHandler`
(`identifier, callback, this`), so `arguments.length === 3` and the
two-argument splice branch runs. -/
def facadeOff (opts : InstallOptions) (ident : String) (cb : Callback)
    (st : BusState) : BusState :=
  { localReg := detachHandlerTwo localCamelCase ident cb st.localReg,
    remote := { st.remote with
      handlers := detachHandlerTwo (effCamelCase opts.camelCase) ident cb
        st.remote.handlers } }

/-- Result of a `$emit` call: the ordinary-callback invocations that
happened, the error propagated out of the local emit (if any), and the bus
state afterwards (an exception does not roll back side effects). -/
structure FacadeEmitResult where
  invocations : List (Nat × JsValue)
  error : Option JsError
  state : BusState

/-- The state of the shared `arguments` tail after a local emit.  The local
and remote emits of `$emit` are applied to the *same* `arguments` object
(lines 393-394), and the local emit mutates a sole object-type argument in
place (line 296 writes through the alias `args = arguments[1]`); a fresh
defaulted array, a primitive wrapped in a new envelope, or a fresh sliced
argument array leaves the caller's values untouched.  A sole `null`
argument makes the assignment throw, leaving the value unchanged. -/
def sharedArgsAfterLocalEmit (cc : Bool) (fld ident : String)
    (extra : List JsValue) : List JsValue :=
  match extra with
  | [a] =>
    if isObjectType a then
      match setProp a fld (JsValue.str (localEmitNorm cc ident)) with
      | Except.ok a' => [a']
      | Except.error _ => [a]
    else [a]
  | _ => extra

/-- `$emit(identifier, ...)` (lines 392-395): tries the local emit; only
when it returns `false` does the remote emit run and enqueue a message.  An
error thrown by a local handler (or by the payload construction) propagates
and the remote emit is never reached.  Both emits are `.apply`-ed to the
same `arguments` object, so the remote emit observes the local emit's
in-place mutation of a sole object argument.  No install option is read on
this path: the local channel was built without options (hence
`localCamelCase` / `localIdentField`), and the remote `emitHandler` uses
the literal key `identifier`. -/
def facadeEmit (_opts : InstallOptions) (st : BusState) (ident : String)
    (extra : List JsValue) : FacadeEmitResult :=
  let r := emitHandlerLocal localCamelCase localIdentField ident extra st.localReg
  match r.result with
  | Except.error er => ⟨r.invocations, some er, st⟩
  | Except.ok true => ⟨r.invocations, none, st⟩
  | Except.ok false =>
    let mutated := sharedArgsAfterLocalEmit localCamelCase localIdentField ident extra
    ⟨r.invocations, none, { st with remote := remoteEmitOp ident mutated st.remote }⟩

/-- Default install call: `Vue.use(plugin)` with no options object. -/
def defaultOpts : InstallOptions :=
  ⟨none, none⟩

/-! Helper lemmas shared by the claim theorems. -/

theorem effCamelCase_true (o : Option Bool) : effCamelCase o = true := by
  cases o with
  | none => rfl
  | some b => cases b <;> rfl

theorem lookupReg_setReg_self (reg : Registry) (k : String) (v : RegVal) :
    lookupReg (setReg reg k v) k = some v := by
  induction reg with
  | nil => simp [setReg, lookupReg]
  | cons p rest ih =>
    obtain ⟨k', v'⟩ := p
    by_cases hk : k' = k
    · simp [setReg, hk, lookupReg]
    · simp [setReg, hk, lookupReg, ih]

theorem string_mk_data (s : String) : String.mk s.data = s := rfl

/-- The payload construction of the local emit throws only when the sole
extra argument is literal `null` (a `null` value survives the object-type
test and the property assignment on it throws). -/
theorem setProp_localArgs_ok (fld : String) (v : JsValue) (extra : List JsValue)
    (h : extra ≠ [JsValue.null]) :
    ∃ payload,
      setProp (if isObjectType (localEmitArgsValue extra) then localEmitArgsValue extra
        else JsValue.obj [("arguments", localEmitArgsValue extra)]) fld v =
        Except.ok payload := by
  match extra with
  | [] => exact ⟨_, rfl⟩
  | [a] =>
    cases a with
    | null => exact absurd rfl h
    | undef => exact ⟨_, rfl⟩
    | bool b => exact ⟨_, rfl⟩
    | num n => exact ⟨_, rfl⟩
    | str s => exact ⟨_, rfl⟩
    | obj fs => exact ⟨_, rfl⟩
    | arr es ps => exact ⟨_, rfl⟩
  | a :: b :: rest => exact ⟨_, rfl⟩

/-- When the emit-time key is bound to an entry list, the local emit either
returns `true` or throws; it never returns `false`. -/
theorem emitHandlerLocal_not_false_of_entries (cc : Bool) (fld ident : String)
    (extra : List JsValue) (reg : Registry) (l : List HandlerEntry)
    (h : lookupReg reg (localEmitNorm cc ident) = some (RegVal.entries l)) :
    (emitHandlerLocal cc fld ident extra reg).result ≠ Except.ok false := by
  intro hr
  unfold emitHandlerLocal at hr
  rcases hsp : setProp (if isObjectType (localEmitArgsValue extra) then localEmitArgsValue extra
      else JsValue.obj [("arguments", localEmitArgsValue extra)]) fld
      (JsValue.str (localEmitNorm cc ident)) with er | payload
  · simp only [hsp, h] at hr
    exact Except.noConfusion hr
  · simp only [hsp, h] at hr
    rcases hre : (runEntries l payload).2 with _ | er
    · simp only [hre] at hr
      simp at hr
    · simp only [hre] at hr
      exact Except.noConfusion hr

/-- When the emit-time key is absent or bound to `null` and the payload
construction does not throw, the local emit returns `false`. -/
theorem emitHandlerLocal_false_of_no_entries (cc : Bool) (fld ident : String)
    (extra : List JsValue) (reg : Registry)
    (hno : ∀ l, lookupReg reg (localEmitNorm cc ident) ≠ some (RegVal.entries l))
    (hnn : extra ≠ [JsValue.null]) :
    (emitHandlerLocal cc fld ident extra reg).result = Except.ok false := by
  obtain ⟨payload, hsp⟩ :=
    setProp_localArgs_ok fld (JsValue.str (localEmitNorm cc ident)) extra hnn
  unfold emitHandlerLocal
  rcases hlk : lookupReg reg (localEmitNorm cc ident) with _ | val
  · simp [hsp, hlk]
  · cases val with
    | nullVal => simp [hsp, hlk]
    | entries l => exact absurd hlk (hno l)

/-! Claim theorems. -/

/-- C10: whatever `camelCase` value an options object supplies at install
time — including an explicit `false` — the effective setting used by both
channels is `true` (`options.camelCase || true` can never yield a falsy
value), and the forced normalizer is the identity exactly on identifiers
containing no dash immediately followed by a letter or digit. -/
theorem c10_camelcase_forced :
    (∀ o : Option Bool, effCamelCase o = true) ∧
    (∀ s : String,
      attachNorm true s = s ↔ hasDashMatch dashClassFull s.data = false) := by
  constructor
  · exact effCamelCase_true
  · intro s
    constructor
    · intro h
      have hd : dashReplace dashClassFull s.data = s.data := congrArg String.data h
      exact (dashReplace_eq_self_iff _ _).1 hd
    · intro h
      show String.mk (dashReplace dashClassFull s.data) = s
      rw [dashReplace_eq_self _ _ h]

/-- C7: the zero-argument detach call never clears the registry — it throws.
The normalization expression runs before the `arguments.length === 0` check,
and because the effective `camelCase` setting is always truthy (C10's
defaulting, modelled by `effCamelCase`), the call always evaluates
`undefined.replace(...)`, a `TypeError`.  The clearing branch in the source
is dead code. -/
theorem c7_zero_arg_detach_throws :
    ∀ (o : Option Bool) (reg : Registry),
      detachHandlerZero (effCamelCase o) reg = Except.error JsError.typeError := by
  intro o reg
  rw [detachHandlerZero, if_pos (effCamelCase_true o)]

/-- C3 counterexample: normalization is not idempotent on all strings.  On
`"--a"` the first pass consumes the second dash (yielding `"-A"`), which
exposes the first dash to the letter `A`, so a second pass changes the
string again (yielding `"A"`). -/
theorem c3_counterexample :
    attachNorm true "--a" = "-A" ∧
    attachNorm true (attachNorm true "--a") = "A" ∧
    attachNorm true (attachNorm true "--a") ≠ attachNorm true "--a" := by
  refine ⟨rfl, rfl, ?_⟩
  decide

/-- C3 amended: normalization with `camelCase` enabled is idempotent on every
string without two consecutive dashes (one replacement pass then leaves no
dash-letter-or-digit match behind, so a second pass is the identity). -/
theorem c3_normalize_idempotent (s : String)
    (h : noDoubleDash s.data = true) :
    attachNorm true (attachNorm true s) = attachNorm true s := by
  show String.mk (dashReplace dashClassFull (String.mk (dashReplace dashClassFull s.data)).data) =
    String.mk (dashReplace dashClassFull s.data)
  exact congrArg String.mk
    (dashReplace_eq_self _ _ (hasDashMatch_dashReplace_of_noDoubleDash s.data h))

theorem c3_witness :
    noDoubleDash "new-score".data = true ∧
    attachNorm true (attachNorm true "new-score") = attachNorm true "new-score" :=
  ⟨by decide, c3_normalize_idempotent "new-score" (by decide)⟩

/-- C4 counterexample: the five operations do not all apply the same
normalization.  The local emit's regex class is `[a-z]` (letters only, the
`i` flag notwithstanding), so on `"a-1"` attach time yields `"a1"` while
local-emit time yields `"a-1"`. -/
theorem c4_counterexample :
    localEmitNorm true "a-1" = "a-1" ∧
    attachNorm true "a-1" = "a1" ∧
    localEmitNorm true "a-1" ≠ attachNorm true "a-1" := by
  refine ⟨rfl, rfl, ?_⟩
  decide

/-- C4 amended: attach time, detach time and inbound-message extraction do
apply the identical normalization; local-emit time applies a narrower one
that agrees with it exactly when the identifier has no dash immediately
followed by a digit; remote-emit time applies no normalization at all — the
raw identifier is injected into the outbound payload. -/
theorem c4_normalization_sites :
    (∀ (cc : Bool) (s : String), detachNorm cc s = attachNorm cc s) ∧
    (∀ (cc : Bool) (s : String), inboundNorm cc s = attachNorm cc s) ∧
    (∀ s : String, noDashDigit s.data = true →
      localEmitNorm true s = attachNorm true s) ∧
    (∀ (ident : String) (fs : List (String × JsValue)),
      emitHandlerRemote ident [JsValue.obj fs] [] =
        [stringify (JsValue.obj (setField fs "identifier" (JsValue.str ident)))]) := by
  refine ⟨fun cc s => rfl, fun cc s => rfl, ?_, ?_⟩
  · intro s h
    show String.mk (dashReplace dashClassLetter s.data) =
      String.mk (dashReplace dashClassFull s.data)
    exact congrArg String.mk (dashReplace_letter_eq_full s.data h)
  · intro ident fs
    rfl

theorem c4_witness :
    noDashDigit "new-score".data = true ∧
    localEmitNorm true "new-score" = attachNorm true "new-score" :=
  ⟨by decide, c4_normalization_sites.2.2.1 "new-score" (by decide)⟩

/-- C5 counterexample: a remote emit with no extra argument does not
serialize the envelope `(identifier, arguments)` — the defaulted empty-array
argument takes the object branch, the identifier is injected as a non-index
array property, and `JSON.stringify` drops it, so the queued payload is the
bare string of an empty array. -/
theorem c5_counterexample :
    emitHandlerRemote "greet" [] [] = ["[]"] ∧
    emitHandlerRemote "greet" [] [] ≠
      [stringify (JsValue.obj [("identifier", JsValue.str "greet"),
        ("arguments", JsValue.arr [] [])])] := by
  refine ⟨rfl, ?_⟩
  decide

/-- C5 amended: the value serialized by a remote emit is the defaulted
argument value — the caller's sole structured argument, or an empty array
when there is no (or a falsy sole) extra argument, or the array of all
arguments when there are several.  Any value of object type gets the
identifier injected and is serialized as-is (array serialization drops the
injected property — first conjunct); only a truthy primitive sole argument
produces the `(identifier, arguments)` envelope. -/
theorem c5_envelope_shape :
    (∀ (es : List JsValue) (ps : List (String × JsValue)),
      stringify (JsValue.arr es ps) = stringify (JsValue.arr es [])) ∧
    (∀ (ident : String) (pump : List String),
      emitHandlerRemote ident [] pump =
        pump ++ [stringify (JsValue.arr [] [("identifier", JsValue.str ident)])]) ∧
    (∀ (ident : String) (v : JsValue) (pump : List String), truthy v = false →
      emitHandlerRemote ident [v] pump =
        pump ++ [stringify (JsValue.arr [] [("identifier", JsValue.str ident)])]) ∧
    (∀ (ident : String) (fs : List (String × JsValue)) (pump : List String),
      emitHandlerRemote ident [JsValue.obj fs] pump =
        pump ++ [stringify (JsValue.obj (setField fs "identifier" (JsValue.str ident)))]) ∧
    (∀ (ident : String) (v : JsValue) (pump : List String),
      truthy v = true → isObjectType v = false →
      emitHandlerRemote ident [v] pump =
        pump ++ [stringify (JsValue.obj
          [("identifier", JsValue.str ident), ("arguments", v)])]) ∧
    (∀ (ident : String) (v w : JsValue) (vs : List JsValue) (pump : List String),
      emitHandlerRemote ident (v :: w :: vs) pump =
        pump ++ [stringify (JsValue.arr (v :: w :: vs)
          [("identifier", JsValue.str ident)])]) ∧
    (∀ (ident : String) (pump : List String),
      emitHandlerRemote ident [] pump = pump ++ ["[]"]) := by
  refine ⟨?_, ?_, ?_, ?_, ?_, ?_, ?_⟩
  · intro es ps
    rfl
  · intro ident pump
    rfl
  · intro ident v pump hv
    simp [emitHandlerRemote, remoteEmitArgsValue, hv, setField]
  · intro ident fs pump
    rfl
  · intro ident v pump ht ho
    cases v <;> simp_all [emitHandlerRemote, remoteEmitArgsValue, truthy, isObjectType]
  · intro ident v w vs pump
    rfl
  · intro ident pump
    rfl

theorem c5_witness :
    emitHandlerRemote "greet" [JsValue.bool false] [] =
      [stringify (JsValue.arr [] [("identifier", JsValue.str "greet")])] :=
  c5_envelope_shape.2.2.1 "greet" (JsValue.bool false) [] rfl

/-- C6 (code bug): attaching a callback with `$once` on the local channel and
emitting its identifier twice invokes the underlying callback zero times,
not once.  The wrapper's body reads `Vue.remote.detach` — but the engine is
installed at `Vue.Events.remote` and `Vue.remote` is never defined — so the
very first emit throws a `TypeError` inside the wrapper before the wrapped
callback is reached, and the second emit does the same. -/
theorem c6_once_wrapper_throws :
    (facadeEmit defaultOpts
        (facadeOnce defaultOpts "ping" true (Callback.base 0) 0 none emptyBus)
        "ping" []).invocations = [] ∧
    (facadeEmit defaultOpts
        (facadeOnce defaultOpts "ping" true (Callback.base 0) 0 none emptyBus)
        "ping" []).error = some JsError.typeError ∧
    (facadeEmit defaultOpts
        ((facadeEmit defaultOpts
          (facadeOnce defaultOpts "ping" true (Callback.base 0) 0 none emptyBus)
          "ping" []).state)
        "ping" []).invocations = [] :=
  ⟨rfl, rfl, rfl⟩

/-- C8 counterexample: after the two-argument detach removes every entry for
`"a"`, the key stays bound to an empty — truthy — array, so a local emit for
`"a"` still returns `true` even though zero handler entries are registered. -/
theorem c8_counterexample :
    lookupReg (detachHandlerTwo true "a" (Callback.base 0)
        (attachHandler true "a" (Callback.base 0) none [])) "a"
      = some (RegVal.entries []) ∧
    (emitHandlerLocal true "identifier" "a" []
        (detachHandlerTwo true "a" (Callback.base 0)
          (attachHandler true "a" (Callback.base 0) none []))).result
      = Except.ok true :=
  ⟨rfl, rfl⟩

/-- C8 amended: when the local emit returns a boolean (rather than
throwing), that boolean is `true` iff the emit-normalized identifier is
bound to a (possibly empty) entry array — not iff at least one entry is
registered.  An identifier whose entries were all removed by two-argument
detach keeps its empty array and still reports `true`. -/
theorem c8_emit_return_value (cc : Bool) (fld ident : String)
    (extra : List JsValue) (reg : Registry) (b : Bool)
    (h : (emitHandlerLocal cc fld ident extra reg).result = Except.ok b) :
    b = true ↔
      ∃ l, lookupReg reg (localEmitNorm cc ident) = some (RegVal.entries l) := by
  rcases hsp : setProp (if isObjectType (localEmitArgsValue extra) then localEmitArgsValue extra
      else JsValue.obj [("arguments", localEmitArgsValue extra)]) fld
      (JsValue.str (localEmitNorm cc ident)) with er | payload
  · unfold emitHandlerLocal at h
    simp only [hsp] at h
    exact Except.noConfusion h
  · unfold emitHandlerLocal at h
    simp only [hsp] at h
    rcases hlk : lookupReg reg (localEmitNorm cc ident) with _ | val
    · simp only [hlk] at h
      have hb : b = false := by
        cases h
        rfl
      subst hb
      simp [hlk]
    · cases val with
      | nullVal =>
        simp only [hlk] at h
        have hb : b = false := by
          cases h
          rfl
        subst hb
        simp [hlk]
      | entries l =>
        simp only [hlk] at h
        rcases hre : (runEntries l payload).2 with _ | er
        · simp only [hre] at h
          have hb : b = true := by
            cases h
            rfl
          subst hb
          simp [hlk]
        · simp only [hre] at h
          exact Except.noConfusion h

theorem c8_witness :
    (emitHandlerLocal true "identifier" "a" []
        (attachHandler true "a" (Callback.base 5) none [])).result = Except.ok true ∧
    (true = true ↔ ∃ l, lookupReg (attachHandler true "a" (Callback.base 5) none [])
      (localEmitNorm true "a") = some (RegVal.entries l)) :=
  ⟨rfl, c8_emit_return_value true "identifier" "a" []
    (attachHandler true "a" (Callback.base 5) none []) true rfl⟩

/-- C9 counterexample: one-argument detach does not remove the key — after
attaching under `"a"` and detaching `"a"`, the mapping still contains the
key, now bound to `null`. -/
theorem c9_counterexample :
    lookupReg (detachHandlerOne true "a"
        (attachHandler true "a" (Callback.base 0) none [])) "a"
      = some RegVal.nullVal ∧
    lookupReg (detachHandlerOne true "a"
        (attachHandler true "a" (Callback.base 0) none [])) "a" ≠ none := by
  refine ⟨rfl, ?_⟩
  decide

/-- C9 amended: full detachment never makes the key absent.  One-argument
detach of a bound identifier rebinds it to `null`; two-argument detach
rebinds it to the filtered entry list — an empty array when the last entry
was removed — and in both cases the key remains in the mapping.  (Only the
unreachable zero-argument clear would empty the mapping.) -/
theorem c9_registry_presence (cc : Bool) (ident : String) (cb : Callback)
    (reg : Registry) (l : List HandlerEntry)
    (h : lookupReg reg (detachNorm cc ident) = some (RegVal.entries l)) :
    lookupReg (detachHandlerOne cc ident reg) (detachNorm cc ident)
      = some RegVal.nullVal ∧
    lookupReg (detachHandlerTwo cc ident cb reg) (detachNorm cc ident)
      = some (RegVal.entries (l.filter (fun e => !cbMatches e.callback cb))) := by
  constructor
  · unfold detachHandlerOne
    simp only [h]
    exact lookupReg_setReg_self reg (detachNorm cc ident) RegVal.nullVal
  · unfold detachHandlerTwo
    simp only [h]
    exact lookupReg_setReg_self reg (detachNorm cc ident) _

theorem c9_witness :
    lookupReg (detachHandlerOne true "a"
        (attachHandler true "a" (Callback.base 1) none [])) (detachNorm true "a")
      = some RegVal.nullVal ∧
    lookupReg (detachHandlerTwo true "a" (Callback.base 1)
        (attachHandler true "a" (Callback.base 1) none [])) (detachNorm true "a")
      = some (RegVal.entries ([(⟨Callback.base 1, none⟩ : HandlerEntry)].filter
          (fun e => !cbMatches e.callback (Callback.base 1)))) :=
  c9_registry_presence true "a" (Callback.base 1)
    (attachHandler true "a" (Callback.base 1) none [])
    [⟨Callback.base 1, none⟩] rfl

/-- C1 counterexample: the local-first fallback is not governed by whether a
handler is registered, and the queued message does not simply carry the
identifier.  (i) After attach + `$off`, zero handlers remain for `"ping"` —
the key is bound to an empty array — yet `$emit("ping")` enqueues nothing
remotely.  (ii) A handler for `"a-1"` is registered under the canonical key
`"a1"`, yet `$emit("a-1", ...)` misses it (emit-time normalization keeps
the digit dash) and enqueues a remote message; moreover the local emit has
already mutated the shared sole object argument — injecting the
local-normalized identifier under the key `"undefined"` — so the queued
payload carries both that key and the raw identifier. -/
theorem c1_counterexample :
    lookupReg (facadeOff defaultOpts "ping" (Callback.base 0)
        (facadeOn defaultOpts "ping" true (Callback.base 0) none emptyBus)).localReg "ping"
      = some (RegVal.entries []) ∧
    (facadeEmit defaultOpts
        (facadeOff defaultOpts "ping" (Callback.base 0)
          (facadeOn defaultOpts "ping" true (Callback.base 0) none emptyBus))
        "ping" []).state.remote.socketPump = [] ∧
    lookupReg (facadeOn defaultOpts "a-1" true (Callback.base 0) none emptyBus).localReg "a1"
      = some (RegVal.entries [⟨Callback.base 0, none⟩]) ∧
    (facadeEmit defaultOpts
        (facadeOn defaultOpts "a-1" true (Callback.base 0) none emptyBus)
        "a-1" [JsValue.obj []]).state.remote.socketPump
      = [stringify (JsValue.obj [("undefined", JsValue.str "a-1"),
          ("identifier", JsValue.str "a-1")])] ∧
    stringify (JsValue.obj [("undefined", JsValue.str "a-1"),
        ("identifier", JsValue.str "a-1")])
      = "\x7b\"undefined\":\"a-1\",\"identifier\":\"a-1\"\x7d" :=
  ⟨rfl, rfl, rfl, rfl, rfl⟩

/-- C1 amended: `$emit` appends nothing to the outbound queue whenever the
local registry binds the emit-normalized identifier to a (possibly empty)
entry array — whether the local emit returns `true` or a handler throws;
when the binding is absent or `null` (and the local payload construction
does not throw, i.e. the sole argument is not `null`), it appends exactly
one message: the remote-emit serialization of the raw identifier and the
*post-local-emit* arguments, a sole object argument having been mutated in
place by the local emit. -/
theorem c1_local_first_fallback (opts : InstallOptions) (st : BusState)
    (ident : String) (extra : List JsValue) :
    ((∃ l, lookupReg st.localReg (localEmitNorm localCamelCase ident)
        = some (RegVal.entries l)) →
      (facadeEmit opts st ident extra).state.remote.socketPump
        = st.remote.socketPump) ∧
    ((∀ l, lookupReg st.localReg (localEmitNorm localCamelCase ident)
        ≠ some (RegVal.entries l)) →
      extra ≠ [JsValue.null] →
      (facadeEmit opts st ident extra).state.remote.socketPump
        = emitHandlerRemote ident
            (sharedArgsAfterLocalEmit localCamelCase localIdentField ident extra)
            st.remote.socketPump) ∧
    (∀ (q : List String) (args : List JsValue), ∃ m,
      emitHandlerRemote ident args q = q ++ [m]) := by
  refine ⟨?_, ?_, ?_⟩
  · rintro ⟨l, hlk⟩
    have hne := emitHandlerLocal_not_false_of_entries localCamelCase
      localIdentField ident extra st.localReg l hlk
    unfold facadeEmit
    rcases hr : (emitHandlerLocal localCamelCase localIdentField
        ident extra st.localReg).result with er | b
    · simp only [hr]
    · cases b with
      | true => simp only [hr]
      | false => exact absurd hr hne
  · intro hno hnn
    have hok := emitHandlerLocal_false_of_no_entries localCamelCase
      localIdentField ident extra st.localReg hno hnn
    unfold facadeEmit
    simp only [hok]
    rfl
  · intro q args
    unfold emitHandlerRemote
    cases hv : remoteEmitArgsValue args <;> exact ⟨_, rfl⟩

theorem c1_witness :
    (facadeEmit defaultOpts
        (facadeOn defaultOpts "ping" true (Callback.base 0) none emptyBus)
        "ping" []).state.remote.socketPump
      = (facadeOn defaultOpts "ping" true (Callback.base 0) none emptyBus).remote.socketPump :=
  (c1_local_first_fallback defaultOpts
      (facadeOn defaultOpts "ping" true (Callback.base 0) none emptyBus) "ping" []).1
    ⟨[⟨Callback.base 0, none⟩], rfl⟩

/-- C2: the flush tick behaves as specified.  An empty queue does nothing; a
non-empty queue with no handle calls `connect()` (the fresh handle is still
connecting, so nothing is sent and the queue is kept); an open connection
receives every queued item in FIFO order and the queue is cleared; an
existing but not-yet-open handle leaves everything untouched.  Finally, two
messages emitted while disconnected are sent with the first strictly before
the second once the connection opens. -/
theorem c2_flush_tick_fifo :
    (∀ st : RemoteState, st.socketPump = [] → pumpHandler st = st) ∧
    (∀ st : RemoteState, st.socketPump ≠ [] → st.client = none →
      pumpHandler st = { st with client := some ReadyState.connecting }) ∧
    (∀ st : RemoteState, st.socketPump ≠ [] → st.client = some ReadyState.opened →
      pumpHandler st = { st with sent := st.sent ++ st.socketPump, socketPump := [] }) ∧
    (∀ (st : RemoteState) (c : ReadyState), st.socketPump ≠ [] →
      st.client = some c → c ≠ ReadyState.opened → pumpHandler st = st) ∧
    (∀ (st : RemoteState) (ida idb : String), st.client = none →
      (pumpHandler (socketOpenEvent (pumpHandler
          (remoteEmitOp idb [JsValue.obj []] (remoteEmitOp ida [JsValue.obj []] st))))).sent
        = st.sent ++ st.socketPump ++
            [stringify (JsValue.obj [("identifier", JsValue.str ida)]),
             stringify (JsValue.obj [("identifier", JsValue.str idb)])]) := by
  refine ⟨?_, ?_, ?_, ?_, ?_⟩
  · intro st h
    simp [pumpHandler, h]
  · intro st h1 h2
    simp [pumpHandler, h1, h2, connectFn]
  · intro st h1 h2
    simp [pumpHandler, h1, h2]
  · intro st c h1 h2 h3
    cases c with
    | opened => exact absurd rfl h3
    | connecting => simp [pumpHandler, h1, h2]
    | closing => simp [pumpHandler, h1, h2]
    | closed => simp [pumpHandler, h1, h2]
  · intro st ida idb h
    simp [remoteEmitOp, emitHandlerRemote, remoteEmitArgsValue, truthy, setField,
      pumpHandler, socketOpenEvent, connectFn, h]

theorem c2_witness :
    pumpHandler ⟨[], ["m"], none, []⟩
      = ⟨[], ["m"], some ReadyState.connecting, []⟩ :=
  c2_flush_tick_fifo.2.1 ⟨[], ["m"], none, []⟩ (by decide) rfl

end VueEventSystem
